import Mathlib

/-!
# Verification of the Jarvis conversation memory engine (`SessionManager`)

A shallow embedding of `src/services/session.service.js` (the `SessionManager`
class) into Lean 4, together with theorems settling the frozen claims about it.

Modelling conventions:
* JS strings are modelled as Lean `String`; all string operations are defined
  over the underlying `List Char` so that concrete computations reduce in the
  kernel.  The inputs of interest are ASCII, so JS UTF-16 length coincides with
  character count.
* `timestamp` is stored by the source as an ISO string produced from the
  creation instant and is only ever consumed through `new Date(...)`
  arithmetic; conversion between the millisecond clock value and the ISO
  string is an order isomorphism, so we model timestamps directly as the
  millisecond clock value (`Nat`).  Where the source performs JS number
  subtraction that may go negative, we compute in `Int`.
* `Date.now()` and `Math.random().toString(36).substr(2, 9)` are environment
  inputs; every operation that consumes them takes the clock value `now : Nat`
  and a stream `rand : Nat → String` of successive random suffixes explicitly.
* JS values that may be `undefined`/`null` are modelled as `Option`; a JS
  property access that throws a `TypeError` on `undefined` (e.g. reading
  `.length` of a missing argument) is modelled in the `Except JsError` monad.
* A JS object-literal `metadata` map is modelled by the record `Meta` holding
  exactly the keys the reachable code reads or writes; a missing key is the
  `none`/default value.  The source only ever reads metadata through optional
  chaining (`metadata?.x`) or spreads it, under which a `null` metadata and an
  empty map are observationally equal, so `Meta` is not wrapped in `Option`.
-/

/-- A JS runtime exception escaping an engine operation. -/
inductive JsError
  | typeError
deriving DecidableEq, Repr

/-- ASCII lower-casing, JS `String.prototype.toLowerCase` on ASCII data. -/
def jsLower (s : String) : String := ⟨s.data.map Char.toLower⟩

/-- JS `hay.includes(sub)` (substring containment). -/
def strIncludesAux (sub : List Char) : List Char → Bool
  | [] => sub.isPrefixOf []
  | c :: t => sub.isPrefixOf (c :: t) || strIncludesAux sub t

/-- JS `hay.includes(sub)`. -/
def jsIncludes (hay sub : String) : Bool := strIncludesAux sub.data hay.data

/-- JS `s.startsWith(pre)`. -/
def jsStartsWith (s pre : String) : Bool := pre.data.isPrefixOf s.data

/-- JS `s.substring(a, b)` for `a ≤ b` (the only call shape in the source). -/
def jsSubstr (s : String) (a b : Nat) : String := ⟨(s.data.take b).drop a⟩

/-- JS `s.length` for an ASCII string. -/
def jsStrLen (s : String) : Nat := s.data.length

/-- Reading `.length` of a possibly-`undefined` JS string: throws `TypeError`
on `undefined`/`null`. -/
def jsLen : Option String → Except JsError Nat
  | none => .error .typeError
  | some s => .ok (jsStrLen s)

/-- Calling `.toLowerCase()` on a possibly-`undefined` JS string: throws
`TypeError` on `undefined`/`null`. -/
def jsToLowerCase : Option String → Except JsError String
  | none => .error .typeError
  | some s => .ok (jsLower s)

/-- JS `a || b` for a possibly-missing string `a` (`undefined` and `""` are
falsy). -/
def jsOrStr (a : Option String) (b : String) : String :=
  match a with
  | some s => if s = "" then b else s
  | none => b

/-- JS `a || b` for possibly-missing numbers (`undefined` and `0` are falsy). -/
def jsOrNat (a b : Option Nat) : Option Nat :=
  match a with
  | some n => if n = 0 then b else a
  | none => b

/-- Template interpolation `${x}` of a possibly-`undefined` string. -/
def jsShowStr : Option String → String
  | none => "undefined"
  | some s => s

/-- The character that writes digit `d` (`d < 10` at every call site). -/
def digitChar (d : Nat) : Char := Char.ofNat (48 + d)

/-- Decimal digits of `n`, least significant first, with explicit fuel so that
the definition is structural and kernel-reducible.  Fuel `n + 1` always
suffices. -/
def natDigitsRevFuel : Nat → Nat → List Char
  | 0, _ => []
  | fuel + 1, n => if n < 10 then [digitChar n] else digitChar (n % 10) :: natDigitsRevFuel fuel (n / 10)

/-- JS number-to-string conversion for a natural (template `${Date.now()}`
and `${events.length}`). -/
def jsNatToString (n : Nat) : String := ⟨(natDigitsRevFuel (n + 1) n).reverse⟩

/-- Template interpolation `${x}` of a possibly-`undefined` number. -/
def jsShowNat : Option Nat → String
  | none => "undefined"
  | some n => jsNatToString n

/-- JS whitespace for the `/\s+/` split (the ASCII portion of the class; the
source contents of interest contain only these). -/
def isJsWs (c : Char) : Bool :=
  c = ' ' || c = '\t' || c = '\n' || c = '\r' || c = '\x0b' || c = '\x0c'

/-- JS `s.split(/\s+/)`: we split at every whitespace character; this differs
from the run-collapsing regex only by extra empty strings, which every caller
filters out (`word && ...` or a length bound). -/
def splitWsAux : List Char → List Char → List String
  | [], acc => [⟨acc.reverse⟩]
  | c :: t, acc => if isJsWs c then ⟨acc.reverse⟩ :: splitWsAux t [] else splitWsAux t (c :: acc)

/-- JS `s.split(/\s+/)` (up to empty strings, see `splitWsAux`). -/
def splitWs (s : String) : List String := splitWsAux s.data []

/-- JS `xs.slice(-n)`: the trailing `n` elements, except that `slice(-0)` is
`slice(0)`, the whole array. -/
def jsSliceTail (n : Nat) (xs : List α) : List α :=
  if n = 0 then xs else xs.drop (xs.length - n)

/-- Insert into a sorted list after all elements `y` with `le y x`: the
auxiliary step of a stable ascending sort. -/
def sortedInsert (le : α → α → Bool) (x : α) : List α → List α
  | [] => [x]
  | y :: ys => if le x y then x :: y :: ys else y :: sortedInsert le x ys

/-- A stable ascending sort (insertion sort).  JS `Array.prototype.sort` is
required to be stable, and a stable sort for a total preorder is unique, so
this is extensionally the source's `.sort((a, b) => ta - tb)`. -/
def stableSort (le : α → α → Bool) : List α → List α
  | [] => []
  | x :: xs => sortedInsert le x (stableSort le xs)

/-- Event roles: `'user' | 'model' | 'system'` (stored as strings in JS). -/
inductive Role
  | user
  | model
  | system
deriving DecidableEq, Repr, BEq

/-- The open `metadata` attribute map: the record holds exactly the keys the
reachable source reads or writes; an absent key is `none` (or the falsy
default for the truthiness-tested `isInitialization`/`compressed` flags). -/
structure Meta where
  isInitialization : Bool := false
  skillName : Option String := none
  source : Option String := none
  textLength : Option Nat := none
  responseLength : Option Nat := none
  contentLength : Option Nat := none
  previousSkill : Option String := none
  newSkill : Option String := none
  consolidatedCount : Option Nat := none
  timeSpan : Option (Nat × Nat) := none
deriving DecidableEq, Repr, BEq

/-- A `ConversationEvent` record.  `primaryContent` is only ever set by the
legacy `createEvent` path and `compressed` only by `compressOldEvents`; events
built by `createConversationEvent` leave them at their absent defaults. -/
structure Event where
  id : String
  timestamp : Nat
  role : Option Role := none
  content : Option String := none
  skill : Option String := none
  action : Option String := none
  category : String
  primaryContent : Option String := none
  metadata : Meta
  contextSummary : String
  compressed : Bool := false
deriving DecidableEq, Repr, BEq

/-- The `SessionManager` instance state.  `maxSize` and `compressionThreshold`
come from the external config source (`session.maxMemorySize`,
`session.compressionThreshold`). -/
structure SessionState where
  sessionMemory : List Event
  compressionEnabled : Bool := true
  maxSize : Nat
  compressionThreshold : Nat
  currentSkill : String := "general"
  isInitialized : Bool
deriving DecidableEq, Repr

/-- `generateEventId()`: `` `${Date.now()}-${Math.random().toString(36).substr(2, 9)}` ``
with the clock value and the random suffix taken as explicit inputs. -/
def generateEventId (now : Nat) (r : String) : String :=
  jsNatToString now ++ "-" ++ r

/-- `categorizeAction(action)`: derives the category string from substring
tests on the lower-cased action (`(action || '').toLowerCase()`). -/
def categorizeAction (action : Option String) : String :=
  let actionLower := jsLower (action.getD "")
  if jsIncludes actionLower "screenshot" || jsIncludes actionLower "ocr" then "capture"
  else if jsIncludes actionLower "speech" || jsIncludes actionLower "transcription" then "speech"
  else if jsIncludes actionLower "llm" || jsIncludes actionLower "gemini" then "llm"
  else if jsIncludes actionLower "skill" || jsIncludes actionLower "switch" then "navigation"
  else "system"

/-- `inferActionFromRole(role)`. -/
def inferActionFromRole : Option Role → String
  | some .user => "user_message"
  | some .model => "model_response"
  | some .system => "system_message"
  | _ => "unknown"

/-- The `details` object passed to `generateContextSummary`: for the
conversation path this is `{ role, content, skill: skill || currentSkill,
...metadata }`; `Meta` carries none of the keys `role`/`content`/`skill`, so
the spread cannot override them. -/
structure SummaryDetails where
  role : Option Role := none
  content : Option String := none
  skill : Option String := none
  responseLength : Option Nat := none
  contentLength : Option Nat := none
  textLength : Option Nat := none
  previousSkill : Option String := none
  newSkill : Option String := none
deriving DecidableEq, Repr

/-- `generateContextSummary(action, details)`: the synthesized human-readable
synopsis.  `currentSkill` is the `this.currentSkill` fallback read inside. -/
def generateContextSummary (currentSkill : String) (action : Option String)
    (details : SummaryDetails) : String :=
  let skill := jsOrStr details.skill currentSkill
  match action with
  | some "speech_transcription" =>
      "User spoke: \x22" ++ jsShowStr (details.content.map (jsSubstr · 0 50)) ++ "...\x22 (" ++ skill ++ " mode)"
  | some "chat_input" =>
      "User typed: \x22" ++ jsShowStr (details.content.map (jsSubstr · 0 50)) ++ "...\x22 (" ++ skill ++ " mode)"
  | some "llm_response" =>
      "AI responded in " ++ skill ++ " mode (" ++ jsShowNat (jsOrNat details.responseLength details.contentLength) ++ " chars)"
  | some "ocr_extraction" =>
      "Screenshot text extracted: " ++ jsShowNat (jsOrNat details.textLength details.contentLength) ++ " characters (" ++ skill ++ " mode)"
  | some "skill_change" =>
      "Switched from " ++ jsShowStr details.previousSkill ++ " to " ++ jsShowStr details.newSkill ++ " mode"
  | some "skill_prompt_initialization" =>
      skill ++ " skill prompt loaded for context"
  | some "user_message" =>
      "User: \x22" ++ jsShowStr (details.content.map (jsSubstr · 0 50)) ++ "...\x22 (" ++ skill ++ ")"
  | some "model_response" =>
      "Model: Response in " ++ skill ++ " mode (" ++ jsShowNat details.contentLength ++ " chars)"
  | _ =>
      match details.role with
      | some .user => "User input in " ++ skill ++ " mode"
      | some .model => "Model response in " ++ skill ++ " mode"
      | _ => jsOrStr action "Unknown action"

/-- `createConversationEvent({role, content, skill, action, metadata})`:
builds the event record, deriving `category`, defaulted `contentLength`
(`content?.length || 0`) and the context summary.  `now`/`r` are the
`Date.now()` value and the `Math.random` suffix consumed by
`generateEventId`. -/
def createConversationEvent (currentSkill : String) (now : Nat) (r : String)
    (role : Option Role) (content : Option String) (skill : Option String)
    (action : Option String) (metadata : Meta) : Event :=
  { id := generateEventId now r
    timestamp := now
    role := role
    content := content
    skill := some (jsOrStr skill currentSkill)
    action := action
    category := categorizeAction action
    metadata := { metadata with contentLength := some ((content.map jsStrLen).getD 0) }
    contextSummary := generateContextSummary currentSkill action
      { role := role
        content := content
        skill := some (jsOrStr skill currentSkill)
        responseLength := metadata.responseLength
        contentLength := metadata.contentLength
        textLength := metadata.textLength
        previousSkill := metadata.previousSkill
        newSkill := metadata.newSkill } }

/-- `removeOldSystemEvents()`: drops `'system'`-category events whose creation
instant is not strictly after `Date.now() - 24h` (JS number arithmetic, hence
the `Int` comparison). -/
def removeOldSystemEvents (now : Nat) (mem : List Event) : List Event :=
  let cutoffTime : Int := (now : Int) - 24 * 60 * 60 * 1000
  mem.filter fun event => event.category != "system" || decide (cutoffTime < (event.timestamp : Int))

/-- `areEventsSimilar(event1, event2)`: same `category`, same `action`,
timestamps within 60000 ms. -/
def areEventsSimilar (event1 event2 : Event) : Bool :=
  let timeDiff := ((event1.timestamp : Int) - (event2.timestamp : Int)).natAbs
  event1.category == event2.category && event1.action == event2.action && decide (timeDiff < 60000)

/-- The recursion of `groupSimilarEvents()` with explicit fuel so that the
definition is structural and kernel-reducible; fuel at least the list length
always suffices (each step strictly shrinks the list). -/
def groupSimilarEventsFuel : Nat → List Event → List (List Event)
  | 0, _ => []
  | _, [] => []
  | fuel + 1, e :: rest =>
      (e :: rest.filter fun e2 => areEventsSimilar e e2)
        :: groupSimilarEventsFuel fuel (rest.filter fun e2 => !areEventsSimilar e e2)

/-- `groupSimilarEvents()`: the source walks the array with a `processed`
index set, starting a group at each unprocessed element and sweeping all later
unprocessed elements similar to it.  Functionally: the head starts a group
with every later element similar to it, and the remaining (dissimilar)
elements are grouped recursively in order — the same partition in the same
order. -/
def groupSimilarEvents (mem : List Event) : List (List Event) :=
  groupSimilarEventsFuel mem.length mem

/-- `createConsolidatedEvent(events)` for the nonempty group
`first :: rest`: spreads the first event, overriding `id` with a freshly
generated one, `timestamp` with the last event's, and recording
`consolidatedCount` and `timeSpan` on top of the first event's metadata. -/
def createConsolidatedEvent (newId : String) (first : Event) (rest : List Event) : Event :=
  let events := first :: rest
  let lastEvent := rest.getLastD first
  { first with
    id := newId
    timestamp := lastEvent.timestamp
    contextSummary := first.contextSummary ++ " (" ++ jsNatToString events.length ++ " similar events)"
    metadata := { first.metadata with
      consolidatedCount := some events.length
      timeSpan := some (first.timestamp, lastEvent.timestamp) } }

/-- The loop of `consolidateSimilarEvents()`: singleton groups pass through,
larger groups are replaced by one consolidated event; `k` counts the
`generateEventId()` calls made so far (each consumes one random suffix). -/
def consolidateGroups (now : Nat) (rand : Nat → String) : List (List Event) → Nat → List Event
  | [], _ => []
  | [e] :: gs, k => e :: consolidateGroups now rand gs k
  | (first :: e2 :: rest) :: gs, k =>
      createConsolidatedEvent (generateEventId now (rand k)) first (e2 :: rest)
        :: consolidateGroups now rand gs (k + 1)
  | [] :: gs, k => consolidateGroups now rand gs k

/-- `consolidateSimilarEvents()`. -/
def consolidateSimilarEvents (now : Nat) (rand : Nat → String) (mem : List Event) : List Event :=
  consolidateGroups now rand (groupSimilarEvents mem) 0

/-- `performMaintenance()`: hard maintenance — aged-system eviction followed
by consolidation (the logging is state-free and omitted). -/
def performMaintenance (now : Nat) (rand : Nat → String) (s : SessionState) : SessionState :=
  { s with sessionMemory := consolidateSimilarEvents now rand (removeOldSystemEvents now s.sessionMemory) }

/-- The per-event arrow function of `compressOldEvents()`: rewrites an event
older than 2 hours whose `primaryContent` is a string longer than 100
characters, truncating `primaryContent` and setting the top-level
`compressed` flag; everything else is returned unchanged.  Note the source
never touches `content` nor `metadata`. -/
def compressEvent (cutoffTime : Int) (event : Event) : Event :=
  if (event.timestamp : Int) < cutoffTime then
    match event.primaryContent with
    | some pc =>
        if jsStrLen pc > 100 then
          { event with
            primaryContent := some (jsSubstr pc 0 100 ++ "...[compressed]")
            compressed := true }
        else event
    | none => event
  else event

/-- The map of `compressOldEvents()` over the store. -/
def compressOldEvents (now : Nat) (mem : List Event) : List Event :=
  mem.map (compressEvent ((now : Int) - 2 * 60 * 60 * 1000))

/-- `performMaintenanceIfNeeded()`: hard maintenance when the store exceeds
`maxSize`, otherwise soft compression when enabled and the store exceeds
`compressionThreshold`, otherwise nothing. -/
def performMaintenanceIfNeeded (now : Nat) (rand : Nat → String) (s : SessionState) : SessionState :=
  if s.sessionMemory.length > s.maxSize then
    performMaintenance now rand s
  else if s.compressionEnabled && s.sessionMemory.length > s.compressionThreshold then
    { s with sessionMemory := compressOldEvents now s.sessionMemory }
  else s

/-- `addConversationEvent({role, content, action, metadata})`: builds the
event with `skill: this.currentSkill` and `action: action ||
inferActionFromRole(role)`, appends it, runs maintenance, and returns the new
event's `id`.  The event's `generateEventId` call consumes `rand 0`; any
consolidation inside maintenance consumes the subsequent suffixes. -/
def addConversationEvent (s : SessionState) (now : Nat) (rand : Nat → String)
    (role : Option Role) (content : Option String) (action : Option String)
    (metadata : Meta) : SessionState × String :=
  let event := createConversationEvent s.currentSkill now (rand 0) role content
    (some s.currentSkill) (some (jsOrStr action (inferActionFromRole role))) metadata
  let s1 := { s with sessionMemory := s.sessionMemory ++ [event] }
  (performMaintenanceIfNeeded now (fun k => rand (k + 1)) s1, event.id)

/-- `addUserInput(text, source)`: the argument object literal evaluates
`text.length` (a `TypeError` on a missing `text`) before anything is stored. -/
def addUserInput (s : SessionState) (now : Nat) (rand : Nat → String)
    (text : Option String) (source : String) : Except JsError (SessionState × String) := do
  let textLength ← jsLen text
  pure (addConversationEvent s now rand (some .user) text
    (some (if source = "speech" then "speech_transcription" else "chat_input"))
    { source := some source, textLength := some textLength })

/-- `addModelResponse(text, metadata)`: evaluates `text.length` into
`responseLength` (a `TypeError` on a missing `text`) before storing. -/
def addModelResponse (s : SessionState) (now : Nat) (rand : Nat → String)
    (text : Option String) (metadata : Meta) : Except JsError (SessionState × String) := do
  let responseLength ← jsLen text
  pure (addConversationEvent s now rand (some .model) text (some "llm_response")
    { metadata with responseLength := some responseLength })

/-- `addOCREvent(extractedText, metadata)`: evaluates `extractedText.length`
(a `TypeError` on a missing argument) before storing. -/
def addOCREvent (s : SessionState) (now : Nat) (rand : Nat → String)
    (extractedText : Option String) (metadata : Meta) : Except JsError (SessionState × String) := do
  let textLength ← jsLen extractedText
  pure (addConversationEvent s now rand (some .user) extractedText (some "ocr_extraction")
    { metadata with source := some "screenshot", textLength := some textLength })

/-- The non-initialization filter shared (inline) by the history views:
`event.role !== 'system' || !event.metadata?.isInitialization`. -/
def nonInitEvents (mem : List Event) : List Event :=
  mem.filter fun event => event.role != some .system || !event.metadata.isInitialization

/-- The projection `{role, content, timestamp, skill, action, id}` returned by
the history views. -/
structure HistEntry where
  role : Option Role
  content : Option String
  timestamp : Nat
  skill : Option String
  action : Option String
  id : String
deriving DecidableEq, Repr

/-- `getConversationHistory(maxEntries = 20)`. -/
def getConversationHistory (s : SessionState) (maxEntries : Nat) : List HistEntry :=
  let conversationEvents := jsSliceTail maxEntries (nonInitEvents s.sessionMemory)
  conversationEvents.map fun event =>
    { role := event.role, content := event.content, timestamp := event.timestamp
      skill := event.skill, action := event.action, id := event.id }

/-- The reference-keyword set scanned by `findContextualReferences`. -/
def referenceKeywords : List String :=
  ["you said", "you mentioned", "earlier", "before", "previous",
   "that answer", "your response", "you told me", "what you said",
   "from before", "remember when", "like you said", "as you mentioned"]

/-- One iteration of the `findContextualReferences` loop over a recent user
input: on a reference-keyword hit, pull in the nearest preceding model
response and the user input that prompted it, deduplicating against the
accumulator.  `userInput.content.toLowerCase()` throws on a missing
`content`. -/
def findContextualStep (allEvents : List Event) (contextualEvents : List Event)
    (userInput : Event) : Except JsError (List Event) := do
  let content ← jsToLowerCase userInput.content
  let hasReference := referenceKeywords.any fun keyword => jsIncludes content keyword
  if hasReference then
    let eventIndex := allEvents.findIdx fun e => e.id == userInput.id
    let contextWindow := (allEvents.take eventIndex).drop (eventIndex - 10)
    match (contextWindow.filter fun e => e.role == some .model).getLast? with
    | some lastAiResponse =>
        if !(contextualEvents.any fun ce => ce.id == lastAiResponse.id) then
          let acc1 := contextualEvents ++ [lastAiResponse]
          let responseIndex := allEvents.findIdx fun e => e.id == lastAiResponse.id
          match ((allEvents.take responseIndex).filter fun e => e.role == some .user).getLast? with
          | some promptingInput =>
              if !(acc1.any fun ce => ce.id == promptingInput.id) then
                pure (acc1 ++ [promptingInput])
              else pure acc1
          | none => pure acc1
        else pure contextualEvents
    | none => pure contextualEvents
  else pure contextualEvents

/-- `findContextualReferences(allEvents)`: scans the last 5 user inputs. -/
def findContextualReferences (allEvents : List Event) : Except JsError (List Event) :=
  let recentUserInputs := jsSliceTail 5 (allEvents.filter fun event => event.role == some .user)
  recentUserInputs.foldlM (findContextualStep allEvents) []

/-- The defensively computed summary structure of
`generateConversationSummary`. -/
structure ConvSummary where
  topics : List String
  skills : List String
  hasCode : Bool
  hasImageAnalysis : Bool
  eventCount : Nat
  timeSpan : Option (Nat × Nat)
deriving Repr

/-- A JS `Set` add: insertion-ordered, deduplicating. -/
def jsSetAdd (s : List String) (x : String) : List String :=
  if s.contains x then s else s ++ [x]

/-- The per-event accumulator of `generateConversationSummary`:
`(topics, skills, hasCode, hasImageAnalysis)`. -/
def summaryStep (acc : List String × List String × Bool × Bool) (event : Event) :
    List String × List String × Bool × Bool :=
  let (topics, skills, hasCode, hasImageAnalysis) := acc
  let skills := match event.skill with
    | some sk => if sk = "" then skills else jsSetAdd skills sk
    | none => skills
  match event.content with
  | some c =>
      if c = "" then (topics, skills, hasCode, hasImageAnalysis)
      else
        let content := jsLower c
        let hasCode := hasCode || jsIncludes content "\x60\x60\x60" ||
          jsIncludes content "function" || jsIncludes content "class"
        let hasImageAnalysis := hasImageAnalysis || event.action == some "ocr_extraction" ||
          jsIncludes content "image" || jsIncludes content "screenshot"
        let words := ((splitWs content).filter fun word =>
          word != "" && jsStrLen word > 4 &&
            !(["that", "this", "with", "from", "have", "been", "will"].contains word)).take 3
        (words.foldl jsSetAdd topics, skills, hasCode, hasImageAnalysis)
  | none => (topics, skills, hasCode, hasImageAnalysis)

/-- `generateConversationSummary(events)`: the input is always a list here, so
the `Array.isArray` guard holds and the per-event guards reduce to the
`content` checks. -/
def generateConversationSummary (events : List Event) : ConvSummary :=
  let (topics, skills, hasCode, hasImageAnalysis) :=
    events.foldl summaryStep ([], [], false, false)
  { topics := topics.take 5
    skills := skills
    hasCode := hasCode
    hasImageAnalysis := hasImageAnalysis
    eventCount := events.length
    timeSpan := match events with
      | [] => none
      | first :: rest => some (first.timestamp, (rest.getLastD first).timestamp) }

/-- A derived conversation thread (`analyzeConversationThreads`). -/
structure Thread where
  id : String
  topic : String
  skill : Option String
  events : List Event
  startTime : Nat
  endTime : Option Nat := none
deriving Repr

/-- The continuation-indicator word set of `isNewTopic`. -/
def continuationWords : List String := ["also", "and", "but", "however", "what about", "how about"]

/-- The same-topic reference-pronoun set of `isNewTopic`. -/
def referenceWords : List String := ["it", "this", "that", "they", "these", "those"]

/-- The follow-up phrase set of `isNewTopic`. -/
def followupQuestions : List String := ["why", "how", "what if", "can you", "could you"]

/-- The short-continuation guard of `isNewTopic`, verbatim the condition
`content.length < 50 && (hasContinuation || hasReference || isFollowup)`
evaluated on the lower-cased new content. -/
def shortContinuationSignal (content : String) : Bool :=
  let hasContinuation := continuationWords.any fun word => jsIncludes content word
  let hasReference := referenceWords.any fun word => jsStartsWith content word
  let isFollowup := followupQuestions.any fun phrase => jsIncludes content phrase
  decide (jsStrLen content < 50) && (hasContinuation || hasReference || isFollowup)

/-- `isNewTopic(event, currentThread)` for a non-null current thread.  The
checks run in source order: empty thread, lexical signals, skill change,
short continuation, then the 5-minute gap; `content.toLowerCase()` throws on
a missing `content`. -/
def isNewTopic (event : Event) (currentThread : Thread) : Except JsError Bool := do
  if currentThread.events.length = 0 then return true
  let content ← jsToLowerCase event.content
  match (currentThread.events.filter fun e => e.role == some .user).getLast? with
  | none => return true
  | some lastUserInput => do
      let _lastContent ← jsToLowerCase lastUserInput.content
      if event.skill != currentThread.skill then return true
      if shortContinuationSignal content then return false
      if (event.timestamp : Int) - (lastUserInput.timestamp : Int) > 5 * 60 * 1000 then return true
      return false

/-- `extractTopic(content)`: first two long non-stop-words of the lower-cased
content, or `'general'`; throws on a missing `content`. -/
def extractTopic (content : Option String) : Except JsError String := do
  let c ← jsToLowerCase content
  let words := ((splitWs c).filter fun word =>
    jsStrLen word > 3 &&
      !(["the", "and", "but", "for", "are", "this", "that", "with", "from"].contains word)).take 2
  let joined := String.intercalate " " words
  return if joined = "" then "general" else joined

/-- The `threadInfo` component returned by `analyzeConversationThreads`. -/
structure ThreadInfo where
  threads : List Thread
  currentThread : Option Thread
  threadCount : Nat
deriving Repr

/-- One iteration of the `analyzeConversationThreads` loop: a user event
either opens a new thread (when there is none or `isNewTopic` holds) or joins
the current one; a model event joins and stamps `endTime`. -/
def threadStep (acc : List Thread × Option Thread) (event : Event) :
    Except JsError (List Thread × Option Thread) := do
  let (threads, currentThread) := acc
  if event.role == some .user then
    let isNew ← match currentThread with
      | none => pure true
      | some ct => isNewTopic event ct
    if isNew then do
      let topic ← extractTopic event.content
      let newThread : Thread :=
        { id := event.id, topic := topic, skill := event.skill
          events := [event], startTime := event.timestamp }
      match currentThread with
      | some ct => pure (threads ++ [ct], some newThread)
      | none => pure (threads, some newThread)
    else
      match currentThread with
      | some ct => pure (threads, some { ct with events := ct.events ++ [event] })
      | none => pure (threads, none)
  else if event.role == some .model then
    match currentThread with
    | some ct => pure (threads, some { ct with events := ct.events ++ [event], endTime := some event.timestamp })
    | none => pure (threads, currentThread)
  else
    pure (threads, currentThread)

/-- `analyzeConversationThreads(events)`: the final open thread is pushed,
the last 3 threads are kept, and `currentThread`/`threadCount` reported. -/
def analyzeConversationThreads (events : List Event) : Except JsError ThreadInfo := do
  let (threads0, currentThread) ← events.foldlM threadStep ([], none)
  let threads := match currentThread with
    | some ct => threads0 ++ [ct]
    | none => threads0
  pure { threads := jsSliceTail 3 threads, currentThread := currentThread, threadCount := threads.length }

/-- A conversation element of the enhanced context: the history projection
plus the `isContextual` mark. -/
structure CtxEntry where
  role : Option Role
  content : Option String
  timestamp : Nat
  skill : Option String
  action : Option String
  id : String
  isContextual : Bool
deriving DecidableEq, Repr

/-- The composed return value of `getEnhancedConversationContext`. -/
structure EnhancedContext where
  conversation : List CtxEntry
  summary : ConvSummary
  threadInfo : ThreadInfo
deriving Repr

/-- The dedup filter
`(event, index, arr) => arr.findIndex(e => e.id === event.id) === index`:
keeps the first occurrence of each `id`. -/
def dedupById (xs : List Event) : List Event :=
  (xs.enum.filter fun p => xs.findIdx (fun e => e.id == p.2.id) == p.1).map (·.2)

/-- `getEnhancedConversationContext(maxEntries = 15)`: trailing window plus
reference-resolver output, deduplicated by `id`, stably re-sorted ascending
by timestamp, annotated with `isContextual`, packaged with the summary and
the thread analysis. -/
def getEnhancedConversationContext (s : SessionState) (maxEntries : Nat) :
    Except JsError EnhancedContext := do
  let conversationEvents := nonInitEvents s.sessionMemory
  let recentEvents := jsSliceTail maxEntries conversationEvents
  let contextualEvents ← findContextualReferences conversationEvents
  let allRelevantEvents :=
    stableSort (fun a b => a.timestamp ≤ b.timestamp) (dedupById (contextualEvents ++ recentEvents))
  let conversation := allRelevantEvents.map fun event =>
    { role := event.role, content := event.content, timestamp := event.timestamp
      skill := event.skill, action := event.action, id := event.id
      isContextual := contextualEvents.any fun ce => ce.id == event.id }
  let summary := generateConversationSummary allRelevantEvents
  let threadInfo ← analyzeConversationThreads allRelevantEvents
  pure { conversation := conversation, summary := summary, threadInfo := threadInfo }

/-- Modelled from the spec: the external Prompt Catalog (`prompt-loader.js` is
not part of the examined sources; only its callers are).  Spec §6: it exposes
`getAvailableSkills() -> [skillName]` and
`getSkillPrompt(skillName) -> string|null`, and §2/§3: it holds one
initializing prompt per named skill.  We model a loaded catalog as the list
of its `(skillName, prompt)` entries. -/
abbrev PromptCatalog : Type := List (String × String)

/-- Modelled from the spec: `promptLoader.getAvailableSkills()`. -/
def getAvailableSkills (catalog : PromptCatalog) : List String :=
  catalog.map (·.1)

/-- Modelled from the spec: `promptLoader.getSkillPrompt(skill)` (without a
programming language), `string|null`. -/
def getSkillPrompt (catalog : PromptCatalog) (skill : String) : Option String :=
  (catalog.find? fun p => p.1 == skill).map (·.2)

/-- The seeding loop of `initializeWithSkillPrompts()`: one
`skill_prompt_initialization` event per available skill whose prompt is
truthy (`if (skillPrompt)` — a `null` or empty-string prompt seeds nothing);
`k` indexes the `generateEventId` calls. -/
def seedSkillPrompts (catalog : PromptCatalog) (currentSkill : String) (now : Nat)
    (rand : Nat → String) : List String → Nat → List Event
  | [], _ => []
  | skill :: rest, k =>
      match getSkillPrompt catalog skill with
      | some skillPrompt =>
          if skillPrompt = "" then seedSkillPrompts catalog currentSkill now rand rest k
          else
            createConversationEvent currentSkill now (rand k) (some .system)
              (some skillPrompt) (some skill) (some "skill_prompt_initialization")
              { isInitialization := true, skillName := some skill }
              :: seedSkillPrompts catalog currentSkill now rand rest (k + 1)
      | none => seedSkillPrompts catalog currentSkill now rand rest k

/-- `initializeWithSkillPrompts()` on the success path (the prompt catalog
loads): seeds one system event per skill with a prompt and marks the store
initialized.  The catch-branch (catalog unreachable) leaves the store as it
was and is not exercised by the claims. -/
def initializeWithSkillPrompts (catalog : PromptCatalog) (now : Nat) (rand : Nat → String)
    (s : SessionState) : SessionState :=
  if s.isInitialized then s
  else
    { s with
      sessionMemory := s.sessionMemory ++
        seedSkillPrompts catalog s.currentSkill now rand (getAvailableSkills catalog) 0
      isInitialized := true }

/-- `clear()`: wipes the store, resets the initialization flag, and reseeds
the skill prompts (the reseeding body contains no `await` and so completes
synchronously). -/
def clear (catalog : PromptCatalog) (now : Nat) (rand : Nat → String)
    (s : SessionState) : SessionState :=
  initializeWithSkillPrompts catalog now rand
    { s with sessionMemory := [], isInitialized := false }

/-- The result of `getMemoryUsage()`.  `approximateSize` (a KB string from
`JSON.stringify`) is a serialization detail outside the model. -/
structure MemoryUsage where
  eventCount : Nat
  utilizationPercent : Nat
deriving DecidableEq, Repr

/-- `getMemoryUsage()` with `Math.round(count / maxSize * 100)` rendered as
exact rational rounding. -/
def getMemoryUsage (s : SessionState) : MemoryUsage :=
  { eventCount := s.sessionMemory.length
    utilizationPercent := (s.sessionMemory.length * 100 * 2 + s.maxSize) / (2 * s.maxSize) }

/-- A serialized run of `addUserInput` calls (source `'chat'`), each with its
clock value, random suffix, and text, collecting the emitted event ids. -/
def runAppends : SessionState → List (Nat × String × String) → SessionState × List String
  | s, [] => (s, [])
  | s, (now, r, text) :: rest =>
      match addUserInput s now (fun _ => r) (some text) "chat" with
      | .ok (s1, id) =>
          let (s2, ids) := runAppends s1 rest
          (s2, id :: ids)
      | .error _ => (s, [])

/-- A concrete engine state with an empty store and comfortable config bounds
(`maxMemorySize = 100`, `compressionThreshold = 50`), used for concrete runs. -/
def baseState : SessionState :=
  { sessionMemory := [], maxSize := 100, compressionThreshold := 50, isInitialized := true }

/-- Unwraps the state of a non-throwing engine call (used only on calls proved
to return `.ok`). -/
def okState (r : Except JsError (SessionState × String)) (fallback : SessionState) : SessionState :=
  match r with
  | .ok (s, _) => s
  | .error _ => fallback

/-- The scenario state after `user:"hello"`. -/
def c6s1 : SessionState :=
  okState (addUserInput baseState 1000 (fun _ => "aaaaaaaaa") (some "hello") "chat") baseState

/-- The scenario state after `model:"hi sir"`. -/
def c6s2 : SessionState :=
  okState (addModelResponse c6s1 2000 (fun _ => "bbbbbbbbb") (some "hi sir") {}) c6s1

/-- The third scenario utterance, `you said hi, what's 2+2?` (the quote
written by code point). -/
def c6text : String := "you said hi, what" ++ ⟨[Char.ofNat 39]⟩ ++ "s 2+2?"

/-- The scenario state after the third utterance. -/
def c6s3 : SessionState :=
  okState (addUserInput c6s2 3000 (fun _ => "ccccccccc") (some c6text) "chat") c6s2

/-- C6: after appending `user:"hello"`, `model:"hi sir"` and the referencing
`user:"you said hi, what's 2+2?"` under skill `general`,
`getEnhancedConversationContext(1)` returns all three events in ascending
timestamp order, with the prior exchange marked `isContextual = true` and the
referencing input marked `isContextual = false`. -/
theorem c6_reference_resolution :
    ((getEnhancedConversationContext c6s3 1).map fun r =>
      r.conversation.map fun e => (e.role, e.content, e.timestamp, e.isContextual)) =
    .ok [(some .user, some "hello", 1000, true),
         (some .model, some "hi sir", 2000, true),
         (some .user, some c6text, 3000, false)] := by
  rfl

/-- C7: on a single append at most one of hard maintenance and soft
compression runs — hard maintenance exactly when the store size exceeds
`maxMemorySize`; soft compression only when it does not, compression is
enabled, and the size exceeds `compressionThreshold`; otherwise the state is
untouched. -/
theorem c7_maintenance_dispatch_exclusive (now : Nat) (rand : Nat → String) (s : SessionState) :
    (s.sessionMemory.length > s.maxSize →
      performMaintenanceIfNeeded now rand s = performMaintenance now rand s) ∧
    (¬ s.sessionMemory.length > s.maxSize → s.compressionEnabled = true →
      s.sessionMemory.length > s.compressionThreshold →
      performMaintenanceIfNeeded now rand s =
        { s with sessionMemory := compressOldEvents now s.sessionMemory }) ∧
    (¬ s.sessionMemory.length > s.maxSize →
      ¬ (s.compressionEnabled = true ∧ s.sessionMemory.length > s.compressionThreshold) →
      performMaintenanceIfNeeded now rand s = s) := by
  refine ⟨fun h => ?_, fun h1 h2 h3 => ?_, fun h1 h2 => ?_⟩
  · simp [performMaintenanceIfNeeded, h]
  · simp [performMaintenanceIfNeeded, h1, h2, h3]
  · rcases Decidable.em (s.compressionEnabled = true) with he | he
    · have h3 : ¬ s.sessionMemory.length > s.compressionThreshold := fun hgt => h2 ⟨he, hgt⟩
      simp [performMaintenanceIfNeeded, h1, he, h3]
    · have he' : s.compressionEnabled = false := by
        cases hb : s.compressionEnabled
        · rfl
        · exact absurd hb he
      simp [performMaintenanceIfNeeded, h1, he']

/-- A concrete event of category `"system"` in the store, used to exercise
the hard-maintenance branch for the C7 witness. -/
def c7State : SessionState :=
  { sessionMemory :=
      [createConversationEvent "general" 0 "aaaaaaaaa" (some .user) (some "hi")
        (some "general") (some "chat_input") {}]
    maxSize := 0, compressionThreshold := 0, isInitialized := true }

/-- Witness for C7: a store of one event over a zero `maxMemorySize` takes
the hard-maintenance branch. -/
theorem c7_maintenance_dispatch_exclusive_witness :
    c7State.sessionMemory.length > c7State.maxSize ∧
    performMaintenanceIfNeeded 0 (fun _ => "bbbbbbbbb") c7State =
      performMaintenance 0 (fun _ => "bbbbbbbbb") c7State := by
  refine ⟨by decide, ?_⟩
  exact (c7_maintenance_dispatch_exclusive 0 (fun _ => "bbbbbbbbb") c7State).1 (by decide)

/-- C2 counterexample: `addUserInput` with a missing `text` throws a
`TypeError` (reading `text.length` in the metadata literal) instead of
applying a defensive default. -/
theorem c2_counterexample :
    addUserInput baseState 0 (fun _ => "aaaaaaaaa") none "chat" = .error .typeError := by
  rfl

/-- C2 amended: `addConversationEvent` does tolerate a missing `content`
(defaulting the derived length to 0 and returning the fresh event id), but
`addUserInput`, `addModelResponse` and `addOCREvent` all throw a `TypeError`
on a missing text argument, and no validation warning is recorded anywhere. -/
theorem c2_amended (s : SessionState) (now : Nat) (rand : Nat → String) (src : String)
    (md : Meta) (role : Option Role) (action : Option String) :
    addUserInput s now rand none src = .error .typeError ∧
    addModelResponse s now rand none md = .error .typeError ∧
    addOCREvent s now rand none md = .error .typeError ∧
    (addConversationEvent s now rand role none action md).2 = generateEventId now (rand 0) ∧
    (createConversationEvent s.currentSkill now (rand 0) role none (some s.currentSkill)
      action md).metadata.contentLength = some 0 := by
  exact ⟨rfl, rfl, rfl, rfl, rfl⟩

/-- A 150-character content string. -/
def longText : String := ⟨List.replicate 150 'a'⟩

/-- A conversation event (timestamp 0) whose `content` has length 150; like
every event of the conversation path it has no `primaryContent`. -/
def c3Event : Event :=
  createConversationEvent "general" 0 "aaaaaaaaa" (some .user) (some longText)
    (some "general") (some "chat_input") {}

/-- C3 counterexample: at clock 3h the event is older than 2 hours and its
`content` has length 150, yet soft compression leaves it exactly unchanged —
the source only ever compresses `primaryContent`, never `content`, and never
writes `metadata.compressed`. -/
theorem c3_counterexample :
    c3Event.content.map jsStrLen = some 150 ∧
    c3Event.timestamp = 0 ∧
    compressOldEvents (3 * 60 * 60 * 1000) [c3Event] = [c3Event] := by
  exact ⟨rfl, rfl, rfl⟩

/-- `compressEvent` never changes `metadata`, `content` or `timestamp`. -/
theorem compressEvent_preserves (ct : Int) (e : Event) :
    (compressEvent ct e).metadata = e.metadata ∧ (compressEvent ct e).content = e.content ∧
    (compressEvent ct e).timestamp = e.timestamp := by
  unfold compressEvent
  split
  · split
    · split <;> exact ⟨rfl, rfl, rfl⟩
    · exact ⟨rfl, rfl, rfl⟩
  · exact ⟨rfl, rfl, rfl⟩

/-- C3 amended: the soft-compression pass truncates `primaryContent` (not
`content`) of events strictly older than 2 hours when it exceeds 100
characters, appending the `...[compressed]` marker and setting the top-level
`compressed` flag (not `metadata.compressed`); every event that is younger or
whose `primaryContent` is missing or short passes through unchanged, and no
event's `content`, `metadata` or `timestamp` is ever altered. -/
theorem c3_amended (now : Nat) (mem : List Event) :
    (∀ e ∈ mem, (e.timestamp : Int) < (now : Int) - 2 * 60 * 60 * 1000 →
      ∀ pc, e.primaryContent = some pc → jsStrLen pc > 100 →
        { e with primaryContent := some (jsSubstr pc 0 100 ++ "...[compressed]"),
                 compressed := true } ∈ compressOldEvents now mem) ∧
    (∀ e ∈ mem, (¬ (e.timestamp : Int) < (now : Int) - 2 * 60 * 60 * 1000 ∨
        (∀ pc, e.primaryContent = some pc → jsStrLen pc ≤ 100)) →
      e ∈ compressOldEvents now mem) ∧
    (∀ x ∈ compressOldEvents now mem, ∃ e ∈ mem,
      x.metadata = e.metadata ∧ x.content = e.content ∧ x.timestamp = e.timestamp) := by
  refine ⟨fun e he hold pc hpc hlen => ?_, fun e he hcond => ?_, fun x hx => ?_⟩
  · have hmem := List.mem_map_of_mem (compressEvent ((now : Int) - 2 * 60 * 60 * 1000)) he
    have heq : compressEvent ((now : Int) - 2 * 60 * 60 * 1000) e =
        { e with primaryContent := some (jsSubstr pc 0 100 ++ "...[compressed]"),
                 compressed := true } := by
      unfold compressEvent
      rw [if_pos hold]
      simp only [hpc]
      rw [if_pos hlen]
    rw [compressOldEvents]
    exact heq ▸ hmem
  · have heq : compressEvent ((now : Int) - 2 * 60 * 60 * 1000) e = e := by
      rcases hcond with hnot | hshort
      · unfold compressEvent
        rw [if_neg hnot]
      · cases hpc : e.primaryContent with
        | none =>
            unfold compressEvent
            simp only [hpc]
            rw [ite_self]
        | some pc =>
            have hle : ¬ jsStrLen pc > 100 := Nat.not_lt.mpr (hshort pc hpc)
            unfold compressEvent
            simp only [hpc]
            rcases Decidable.em ((e.timestamp : Int) < (now : Int) - 2 * 60 * 60 * 1000) with hc | hc
            · rw [if_pos hc, if_neg hle]
            · rw [if_neg hc]
    rw [compressOldEvents]
    exact heq ▸ List.mem_map_of_mem _ he
  · rw [compressOldEvents] at hx
    obtain ⟨e, he, rfl⟩ := List.mem_map.mp hx
    exact ⟨e, he, compressEvent_preserves _ e⟩

/-- A legacy-path event (the `addEvent`/`createEvent` shape) carrying a long
`primaryContent`, for the C3 witness. -/
def c3Primary : Event :=
  { id := "0-primary"
    timestamp := 0
    action := some "legacy_capture"
    category := categorizeAction (some "legacy_capture")
    primaryContent := some longText
    metadata := {}
    contextSummary := "legacy" }

set_option maxRecDepth 4000 in
/-- Witness for C3 amended: at clock 3h the legacy event is compressed to the
100-character prefix plus marker with the top-level flag set. -/
theorem c3_amended_witness :
    (c3Primary.timestamp : Int) < ((3 * 60 * 60 * 1000 : Nat) : Int) - 2 * 60 * 60 * 1000 ∧
    { c3Primary with
        primaryContent := some (jsSubstr longText 0 100 ++ "...[compressed]"),
        compressed := true } ∈ compressOldEvents (3 * 60 * 60 * 1000) [c3Primary] := by
  refine ⟨by decide, ?_⟩
  exact (c3_amended (3 * 60 * 60 * 1000) [c3Primary]).1 c3Primary (by simp) (by decide)
    longText rfl (by decide)

/-- The store after one `addUserInput` of `"hello"` at clock 0: a single
`user`-role event whose action `chat_input` derives category `"system"`. -/
def c1State : SessionState :=
  okState (addUserInput baseState 0 (fun _ => "aaaaaaaaa") (some "hello") "chat") baseState

/-- C1 counterexample: hard maintenance at clock 25h deletes the 25-hour-old
`user`-role `chat_input` event outright (its derived category is `"system"`),
with no consolidation involved — the store ends empty. -/
theorem c1_counterexample :
    c1State.sessionMemory.map (fun e => (e.role, e.category)) = [(some .user, "system")] ∧
    (performMaintenance (25 * 60 * 60 * 1000) (fun _ => "bbbbbbbbb") c1State).sessionMemory = [] := by
  exact ⟨rfl, rfl⟩

/-- First event of the C4 consolidation pair. -/
def c4A : Event :=
  createConversationEvent "general" 0 "aaaaaaaaa" (some .model) (some "resp one")
    (some "general") (some "llm_response") {}

/-- Second event of the C4 consolidation pair, 1000 ms later. -/
def c4B : Event :=
  createConversationEvent "general" 1000 "bbbbbbbbb" (some .model) (some "resp two")
    (some "general") (some "llm_response") {}

/-- A store holding exactly the C4 pair. -/
def c4State : SessionState :=
  { sessionMemory := [c4A, c4B], maxSize := 1, compressionThreshold := 1, isInitialized := true }

/-- C4 counterexample: maintenance at clock 2000 consolidates the similar
pair into one event with `consolidatedCount = 2` — but its `id` is freshly
generated (`"2000-ccccccccc"`), not the first event's `"0-aaaaaaaaa"`. -/
theorem c4_counterexample :
    c4A.id = "0-aaaaaaaaa" ∧
    (performMaintenance 2000 (fun _ => "ccccccccc") c4State).sessionMemory.map
      (fun e => (e.id, e.metadata.consolidatedCount)) = [("2000-ccccccccc", some 2)] := by
  exact ⟨rfl, rfl⟩

/-- The opening user input of the C5 thread (long content, clock 0). -/
def c5Last : Event :=
  createConversationEvent "general" 0 "aaaaaaaaa" (some .user)
    (some "tell me about binary search trees in detail") (some "general") (some "chat_input") {}

/-- The current thread holding that input. -/
def c5Thread : Thread :=
  { id := c5Last.id, topic := "tell about", skill := c5Last.skill
    events := [c5Last], startTime := 0 }

/-- A short lexical-continuation user input 10 minutes later. -/
def c5Event : Event :=
  createConversationEvent "general" 600000 "bbbbbbbbb" (some .user) (some "and more")
    (some "general") (some "chat_input") {}

/-- C5 counterexample: the gap since the previous user input is 10 minutes
(well over 5), yet `isNewTopic` classifies the short continuation `"and
more"` as the same thread — the lexical short-content check precedes (and
preempts) the time-gap check. -/
theorem c5_counterexample :
    (c5Event.timestamp : Int) - (c5Last.timestamp : Int) ≥ 5 * 60 * 1000 ∧
    isNewTopic c5Event c5Thread = .ok false := by
  exact ⟨by decide, rfl⟩

/-- Bind of a successful `Except` computation. -/
theorem except_bind_ok (a : α) (f : α → Except ε β) : (Except.ok a : Except ε α) >>= f = f a := rfl

/-- C5 amended: a gap of strictly more than 5 minutes since the previous user
input forces a new thread only when the short-content lexical-continuation
check did not already classify the input as a continuation (that check runs
first and returns early); with no such signal and same skill, the long gap
does start a new thread. -/
theorem c5_amended (event : Event) (ct : Thread) (c lc : String) (lu : Event)
    (hne : ct.events.length ≠ 0)
    (hc : event.content = some c)
    (hlu : (ct.events.filter fun e => e.role == some .user).getLast? = some lu)
    (hlc : lu.content = some lc)
    (hnosig : shortContinuationSignal (jsLower c) = false)
    (htime : (event.timestamp : Int) - (lu.timestamp : Int) > 5 * 60 * 1000) :
    isNewTopic event ct = .ok true := by
  cases hsk : event.skill != ct.skill
  · simp [isNewTopic, hne, hc, hlc, hlu, jsToLowerCase, hsk, hnosig, except_bind_ok]
    rw [if_pos (show (300000 : Int) < (event.timestamp : Int) - (lu.timestamp : Int) by omega)]
    rfl
  · simp [isNewTopic, hne, hc, hlc, hlu, jsToLowerCase, hsk, except_bind_ok]

/-- The opening user input of the C5 witness thread. -/
def c5wLast : Event :=
  createConversationEvent "general" 0 "aaaaaaaaa" (some .user) (some "please explain the design")
    (some "general") (some "chat_input") {}

/-- The C5 witness thread holding that input. -/
def c5wThread : Thread :=
  { id := c5wLast.id, topic := "please explain", skill := c5wLast.skill
    events := [c5wLast], startTime := 0 }

/-- A long, signal-free user input 10 minutes later. -/
def c5wEvent : Event :=
  createConversationEvent "general" 600000 "bbbbbbbbb" (some .user)
    (some "give me a full dependency report for the whole new codebase")
    (some "general") (some "chat_input") {}

/-- Witness for C5 amended: with no lexical continuation signal the 10-minute
gap does open a new thread. -/
theorem c5_amended_witness :
    shortContinuationSignal (jsLower "give me a full dependency report for the whole new codebase") = false ∧
    isNewTopic c5wEvent c5wThread = .ok true := by
  refine ⟨by decide, ?_⟩
  exact c5_amended c5wEvent c5wThread
    "give me a full dependency report for the whole new codebase"
    "please explain the design" c5wLast (by decide) rfl rfl rfl (by decide) (by decide)

/-- C4 amended: two similar events (same category and action, timestamps
within 60000 ms) that survive the aged-system eviction step (each is not both
of category `"system"` and older than 24 hours — in particular any fresh
pair, whatever its category) consolidate under hard maintenance into exactly
one event that carries a freshly generated id (not the first event's), the
first event's `action` and `skill`, the last event's timestamp (the maximum
for an append-ordered pair), `metadata.consolidatedCount = 2`, and the
recorded `metadata.timeSpan`. -/
theorem c4_amended (now : Nat) (rand : Nat → String) (s : SessionState) (A B : Event)
    (hmem : s.sessionMemory = [A, B])
    (hcat : A.category = B.category)
    (hact : A.action = B.action)
    (hkeepA : A.category ≠ "system" ∨ (now : Int) - 24 * 60 * 60 * 1000 < (A.timestamp : Int))
    (hkeepB : B.category ≠ "system" ∨ (now : Int) - 24 * 60 * 60 * 1000 < (B.timestamp : Int))
    (hclose : ((A.timestamp : Int) - (B.timestamp : Int)).natAbs < 60000)
    (hord : A.timestamp ≤ B.timestamp) :
    (performMaintenance now rand s).sessionMemory =
      [createConsolidatedEvent (generateEventId now (rand 0)) A [B]] ∧
    (createConsolidatedEvent (generateEventId now (rand 0)) A [B]).id = generateEventId now (rand 0) ∧
    (createConsolidatedEvent (generateEventId now (rand 0)) A [B]).action = A.action ∧
    (createConsolidatedEvent (generateEventId now (rand 0)) A [B]).skill = A.skill ∧
    (createConsolidatedEvent (generateEventId now (rand 0)) A [B]).timestamp = max A.timestamp B.timestamp ∧
    (createConsolidatedEvent (generateEventId now (rand 0)) A [B]).metadata.consolidatedCount = some 2 ∧
    (createConsolidatedEvent (generateEventId now (rand 0)) A [B]).metadata.timeSpan = some (A.timestamp, B.timestamp) := by
  have hsim : areEventsSimilar A B = true := by
    simp [areEventsSimilar, hcat, hact, hclose]
  have hA : (A.category != "system" ||
      decide ((now : Int) - 24 * 60 * 60 * 1000 < (A.timestamp : Int))) = true := by
    rcases hkeepA with h | h
    · simp [h]
    · simp
      exact Or.inr (by omega)
  have hB : (B.category != "system" ||
      decide ((now : Int) - 24 * 60 * 60 * 1000 < (B.timestamp : Int))) = true := by
    rcases hkeepB with h | h
    · simp [h]
    · simp
      exact Or.inr (by omega)
  have hrm : removeOldSystemEvents now s.sessionMemory = [A, B] := by
    simp only [removeOldSystemEvents, hmem]
    rw [List.filter_cons_of_pos, List.filter_cons_of_pos, List.filter_nil]
    · exact hB
    · exact hA
  have hgrp : groupSimilarEvents [A, B] = [[A, B]] := by
    simp [groupSimilarEvents, groupSimilarEventsFuel, hsim]
  refine ⟨?_, rfl, rfl, rfl, ?_, rfl, rfl⟩
  · simp [performMaintenance, consolidateSimilarEvents, hrm, hgrp, consolidateGroups]
  · simp [createConsolidatedEvent, Nat.max_eq_right hord]

/-- First event of a fresh `user_message` pair: its derived category is
`"system"`, the case the amended claim also covers. -/
def c4sA : Event :=
  createConversationEvent "general" 0 "aaaaaaaaa" (some .user) (some "hello there")
    (some "general") (some "user_message") {}

/-- Second event of the fresh `user_message` pair, 1000 ms later. -/
def c4sB : Event :=
  createConversationEvent "general" 1000 "bbbbbbbbb" (some .user) (some "hello again")
    (some "general") (some "user_message") {}

/-- A store holding exactly the fresh category-`"system"` pair. -/
def c4sState : SessionState :=
  { sessionMemory := [c4sA, c4sB], maxSize := 1, compressionThreshold := 1, isInitialized := true }

/-- Witness for C4 amended: a fresh pair whose derived category *is*
`"system"` (action `user_message`) consolidates into the single
freshly-identified event — it survives the eviction step because it is
younger than 24 hours. -/
theorem c4_amended_witness :
    c4sA.category = "system" ∧
    (performMaintenance 2000 (fun _ => "ccccccccc") c4sState).sessionMemory =
      [createConsolidatedEvent (generateEventId 2000 "ccccccccc") c4sA [c4sB]] := by
  refine ⟨rfl, ?_⟩
  exact (c4_amended 2000 (fun _ => "ccccccccc") c4sState c4sA c4sB rfl rfl rfl
    (Or.inr (by decide)) (Or.inr (by decide)) (by decide) (by decide)).1

/-- C10: seeded skill prompts (`skill_prompt_initialization`) derive category
`"navigation"`, not `"system"`, so the aged-system eviction never deletes
them (it keeps every non-`"system"`-category event); the history views
exclude a `system`-role event exactly when its `metadata.isInitialization`
flag is set. -/
theorem c10_seeded_prompts :
    categorizeAction (some "skill_prompt_initialization") = "navigation" ∧
    (∀ (catalog : PromptCatalog) (cs : String) (now : Nat) (rand : Nat → String)
        (skills : List String) (k : Nat),
      ∀ e ∈ seedSkillPrompts catalog cs now rand skills k, e.category = "navigation") ∧
    (∀ (now : Nat) (mem : List Event), ∀ e ∈ mem, e.category ≠ "system" →
      e ∈ removeOldSystemEvents now mem) ∧
    (∀ (mem : List Event), ∀ e ∈ mem, e.role = some .system →
      e.metadata.isInitialization = false → e ∈ nonInitEvents mem) ∧
    (∀ (mem : List Event), ∀ e ∈ nonInitEvents mem,
      ¬ (e.role = some .system ∧ e.metadata.isInitialization = true)) := by
  refine ⟨by decide, ?_, ?_, ?_, ?_⟩
  · intro catalog cs now rand skills
    induction skills with
    | nil => intro k e he; simp [seedSkillPrompts] at he
    | cons skill rest ih =>
        intro k e he
        rw [seedSkillPrompts] at he
        cases h : getSkillPrompt catalog skill with
        | some p =>
            simp only [h] at he
            by_cases hp : p = ""
            · rw [if_pos hp] at he
              exact ih k e he
            · rw [if_neg hp] at he
              rcases List.mem_cons.mp he with rfl | htail
              · rfl
              · exact ih (k + 1) e htail
        | none =>
            simp only [h] at he
            exact ih k e he
  · intro now mem e he h
    simp [removeOldSystemEvents, List.mem_filter, he, h]
  · intro mem e he hrole hinit
    simp [nonInitEvents, List.mem_filter, he, hrole, hinit]
  · intro mem e he
    rintro ⟨hrole, hinit⟩
    have := (List.mem_filter.mp he).2
    rw [hrole, hinit] at this
    exact absurd this (by decide)

/-- A concrete seeded skill-prompt event. -/
def c10Seed : Event :=
  createConversationEvent "general" 0 "aaaaaaaaa" (some .system) (some "prompt text")
    (some "general") (some "skill_prompt_initialization")
    { isInitialization := true, skillName := some "general" }

/-- Witness for C10: the concrete seeded prompt is of category
`"navigation"` and survives the aged-system eviction at clock 25h. -/
theorem c10_seeded_prompts_witness :
    c10Seed.category ≠ "system" ∧
    c10Seed ∈ removeOldSystemEvents (25 * 60 * 60 * 1000) [c10Seed] := by
  refine ⟨by decide, ?_⟩
  exact c10_seeded_prompts.2.2.1 (25 * 60 * 60 * 1000) [c10Seed] c10Seed (by simp) (by decide)

/-- Every skill name drawn from the catalog has a (non-null) prompt. -/
theorem getSkillPrompt_of_mem_keys :
    ∀ (catalog : PromptCatalog) (sk : String), sk ∈ catalog.map (·.1) →
      ∃ q, getSkillPrompt catalog sk = some q := by
  intro catalog
  induction catalog with
  | nil => intro sk h; simp at h
  | cons c rest ih =>
      intro sk h
      cases hb : (c.1 == sk) with
      | true => exact ⟨c.2, by simp [getSkillPrompt, List.find?, hb]⟩
      | false =>
          rcases List.mem_cons.mp h with rfl | htail
          · simp at hb
          · obtain ⟨q, hq⟩ := ih sk htail
            exact ⟨q, by simp [getSkillPrompt, List.find?, hb]; simpa [getSkillPrompt] using hq⟩

/-- The value returned by `getSkillPrompt` is one of the catalog's prompts. -/
theorem getSkillPrompt_value_mem (catalog : PromptCatalog) (sk q : String)
    (h : getSkillPrompt catalog sk = some q) : ∃ p ∈ catalog, p.2 = q := by
  unfold getSkillPrompt at h
  cases hf : catalog.find? (fun p => p.1 == sk) with
  | none =>
      rw [hf] at h
      exact absurd h (by simp)
  | some pr =>
      rw [hf] at h
      exact ⟨pr, List.mem_of_find?_eq_some hf, by simpa using h⟩

/-- The seeding loop emits exactly one event per skill whose prompt exists
and is truthy (non-empty). -/
theorem seedSkillPrompts_length (catalog : PromptCatalog) (cs : String) (now : Nat)
    (rand : Nat → String) :
    ∀ (skills : List String) (k : Nat),
      (∀ sk ∈ skills, ∃ q, getSkillPrompt catalog sk = some q ∧ q ≠ "") →
      (seedSkillPrompts catalog cs now rand skills k).length = skills.length := by
  intro skills
  induction skills with
  | nil => intro k _; rfl
  | cons skill rest ih =>
      intro k h
      obtain ⟨q, hq, hq0⟩ := h skill (List.mem_cons_self _ _)
      rw [seedSkillPrompts]
      simp only [hq, if_neg hq0]
      simp only [List.length_cons]
      rw [ih (k + 1) (fun sk hs => h sk (List.mem_cons_of_mem _ hs))]

/-- Every seeded event is a `system`-role initialization event. -/
theorem seedSkillPrompts_init (catalog : PromptCatalog) (cs : String) (now : Nat)
    (rand : Nat → String) :
    ∀ (skills : List String) (k : Nat), ∀ e ∈ seedSkillPrompts catalog cs now rand skills k,
      e.role = some .system ∧ e.metadata.isInitialization = true := by
  intro skills
  induction skills with
  | nil => intro k e he; simp [seedSkillPrompts] at he
  | cons skill rest ih =>
      intro k e he
      rw [seedSkillPrompts] at he
      cases h : getSkillPrompt catalog skill with
      | some p =>
          simp only [h] at he
          by_cases hp : p = ""
          · rw [if_pos hp] at he
            exact ih k e he
          · rw [if_neg hp] at he
            rcases List.mem_cons.mp he with rfl | htail
            · exact ⟨rfl, rfl⟩
            · exact ih (k + 1) e htail
      | none =>
          simp only [h] at he
          exact ih k e he

/-- C8: when every catalog prompt is a (truthy) non-empty string — the spec's
"one initializing prompt per named skill" — `clear()` leaves the store with
exactly one seeded initialization event per catalog skill
(`getMemoryUsage().eventCount` equals the catalog size), and
`getConversationHistory` excludes all of them. -/
theorem c8_clear_reseeds (catalog : PromptCatalog) (now : Nat) (rand : Nat → String)
    (s : SessionState) (k : Nat) (hprompts : ∀ p ∈ catalog, p.2 ≠ "") :
    (getMemoryUsage (clear catalog now rand s)).eventCount = catalog.length ∧
    getConversationHistory (clear catalog now rand s) k = [] := by
  have hkeys : ∀ sk ∈ getAvailableSkills catalog,
      ∃ q, getSkillPrompt catalog sk = some q ∧ q ≠ "" := by
    intro sk h
    obtain ⟨q, hq⟩ := getSkillPrompt_of_mem_keys catalog sk h
    obtain ⟨p, hp, hpq⟩ := getSkillPrompt_value_mem catalog sk q hq
    exact ⟨q, hq, hpq ▸ hprompts p hp⟩
  constructor
  · show (clear catalog now rand s).sessionMemory.length = catalog.length
    simp only [clear, initializeWithSkillPrompts, if_neg (by simp : ¬ (false = true))]
    simp only [List.nil_append]
    rw [seedSkillPrompts_length catalog _ now rand (getAvailableSkills catalog) 0 hkeys]
    simp [getAvailableSkills]
  · have hnil : nonInitEvents
        (seedSkillPrompts catalog s.currentSkill now rand (getAvailableSkills catalog) 0) = [] := by
      rw [nonInitEvents, List.filter_eq_nil_iff]
      intro e he
      obtain ⟨hrole, hinit⟩ :=
        seedSkillPrompts_init catalog s.currentSkill now rand (getAvailableSkills catalog) 0 e he
      simp only [hrole, hinit]
      decide
    simp only [getConversationHistory, clear, initializeWithSkillPrompts]
    simp only [if_neg (by simp : ¬ (false = true))]
    simp only [List.nil_append, hnil]
    simp [jsSliceTail]

/-- A concrete two-skill prompt catalog with non-empty prompts. -/
def c8Catalog : PromptCatalog := [("general", "be helpful"), ("dsa", "teach algorithms")]

/-- Witness for C8: clearing over the concrete catalog reseeds exactly two
events and the history view excludes both. -/
theorem c8_clear_reseeds_witness :
    (∀ p ∈ c8Catalog, p.2 ≠ "") ∧
    (getMemoryUsage (clear c8Catalog 0 (fun _ => "aaaaaaaaa") baseState)).eventCount =
      c8Catalog.length ∧
    getConversationHistory (clear c8Catalog 0 (fun _ => "aaaaaaaaa") baseState) 20 = [] := by
  refine ⟨by decide, ?_⟩
  exact c8_clear_reseeds c8Catalog 0 (fun _ => "aaaaaaaaa") baseState 20 (by decide)

/-- Every element of the list lands in some group of the grouping pass. -/
theorem mem_groupSimilarEventsFuel :
    ∀ (fuel : Nat) (xs : List Event), xs.length ≤ fuel →
      ∀ x ∈ xs, ∃ g, g ∈ groupSimilarEventsFuel fuel xs ∧ x ∈ g := by
  intro fuel
  induction fuel with
  | zero =>
      intro xs hlen x hx
      rw [Nat.le_zero, List.length_eq_zero] at hlen
      subst hlen
      simp at hx
  | succ fuel ih =>
      intro xs hlen x hx
      cases xs with
      | nil => simp at hx
      | cons e rest =>
          rcases List.mem_cons.mp hx with rfl | hrest
          · exact ⟨_, List.mem_cons_self _ _, List.mem_cons_self _ _⟩
          · by_cases hsim : areEventsSimilar e x = true
            · refine ⟨e :: rest.filter (fun e2 => areEventsSimilar e e2),
                List.mem_cons_self _ _, ?_⟩
              exact List.mem_cons_of_mem _ (List.mem_filter.mpr ⟨hrest, hsim⟩)
            · have hx2 : x ∈ rest.filter fun e2 => !areEventsSimilar e e2 :=
                List.mem_filter.mpr ⟨hrest, by simp [hsim]⟩
              have hlen2 : (rest.filter fun e2 => !areEventsSimilar e e2).length ≤ fuel := by
                have h1 := List.length_filter_le (fun e2 => !areEventsSimilar e e2) rest
                have h2 : rest.length ≤ fuel := Nat.le_of_succ_le_succ hlen
                omega
              obtain ⟨g, hg, hxg⟩ := ih _ hlen2 x hx2
              exact ⟨g, List.mem_cons_of_mem _ hg, hxg⟩

/-- Every group contributes its representative to the consolidation output:
a singleton passes through, a larger group is represented by its consolidated
event (for some random-suffix index). -/
theorem consolidateGroups_mem (now : Nat) (rand : Nat → String) :
    ∀ (gs : List (List Event)) (k : Nat) (g : List Event), g ∈ gs →
      (∀ e, g = [e] → e ∈ consolidateGroups now rand gs k) ∧
      (∀ first e2 rest, g = first :: e2 :: rest →
        ∃ k2, createConsolidatedEvent (generateEventId now (rand k2)) first (e2 :: rest)
          ∈ consolidateGroups now rand gs k) := by
  intro gs
  induction gs with
  | nil => intro k g hg; simp at hg
  | cons g0 gs ih =>
      intro k g hg
      rcases List.mem_cons.mp hg with rfl | htail
      · match g with
        | [] =>
            exact ⟨fun e he => by simp at he, fun f e2 r hr => by simp at hr⟩
        | [e] =>
            refine ⟨fun e1 he1 => ?_, fun f e2 r hr => by simp at hr⟩
            cases he1
            exact List.mem_cons_self _ _
        | first :: e2 :: rest =>
            refine ⟨fun e1 he1 => by simp at he1, fun f ee r hr => ?_⟩
            cases hr
            exact ⟨k, List.mem_cons_self _ _⟩
      · match g0 with
        | [] =>
            exact ih k g htail
        | [e0] =>
            obtain ⟨h1, h2⟩ := ih k g htail
            exact ⟨fun e he => List.mem_cons_of_mem _ (h1 e he),
              fun f e2 r hr => (h2 f e2 r hr).imp fun k2 hk2 => List.mem_cons_of_mem _ hk2⟩
        | f0 :: s0 :: r0 =>
            obtain ⟨h1, h2⟩ := ih (k + 1) g htail
            exact ⟨fun e he => List.mem_cons_of_mem _ (h1 e he),
              fun f e2 r hr => (h2 f e2 r hr).imp fun k2 hk2 => List.mem_cons_of_mem _ hk2⟩

/-- C1 amended: during hard maintenance the only events deleted outright are
events of derived *category* `"system"` older than 24 hours — and these can
have `user` or `model` role (e.g. actions `chat_input` and `user_message`
categorize as `"system"`); every other event either survives unchanged or is
merged into the consolidated representative of its similarity group. -/
theorem c1_amended (now : Nat) (rand : Nat → String) (s : SessionState) (e : Event)
    (he : e ∈ s.sessionMemory)
    (hkeep : e.category ≠ "system" ∨ (now : Int) - 24 * 60 * 60 * 1000 < (e.timestamp : Int)) :
    ∃ g, g ∈ groupSimilarEvents (removeOldSystemEvents now s.sessionMemory) ∧ e ∈ g ∧
      ((g = [e] ∧ e ∈ (performMaintenance now rand s).sessionMemory) ∨
       (∃ first e2 rest k, g = first :: e2 :: rest ∧
         createConsolidatedEvent (generateEventId now (rand k)) first (e2 :: rest)
           ∈ (performMaintenance now rand s).sessionMemory)) := by
  have hin : e ∈ removeOldSystemEvents now s.sessionMemory := by
    rcases hkeep with h | h
    · exact List.mem_filter.mpr ⟨he, by simp [h]⟩
    · refine List.mem_filter.mpr ⟨he, ?_⟩
      simp
      exact Or.inr (by omega)
  obtain ⟨g, hg, hxg⟩ :=
    mem_groupSimilarEventsFuel (removeOldSystemEvents now s.sessionMemory).length
      (removeOldSystemEvents now s.sessionMemory) le_rfl e hin
  have hg' : g ∈ groupSimilarEvents (removeOldSystemEvents now s.sessionMemory) := hg
  have hout : (performMaintenance now rand s).sessionMemory =
      consolidateGroups now rand (groupSimilarEvents (removeOldSystemEvents now s.sessionMemory)) 0 := rfl
  refine ⟨g, hg', hxg, ?_⟩
  match g, hxg with
  | [x], hxg =>
      have hx : e = x := by simpa using hxg
      subst hx
      left
      refine ⟨rfl, ?_⟩
      rw [hout]
      exact (consolidateGroups_mem now rand _ 0 _ hg').1 e rfl
  | first :: e2 :: rest, hxg =>
      right
      obtain ⟨k2, hk2⟩ := (consolidateGroups_mem now rand _ 0 _ hg').2 first e2 rest rfl
      exact ⟨first, e2, rest, k2, rfl, by rw [hout]; exact hk2⟩

/-- A one-event store whose event has category `"llm"`. -/
def c1wState : SessionState :=
  { sessionMemory := [c4A], maxSize := 0, compressionThreshold := 0, isInitialized := true }

/-- Witness for C1 amended: a non-`"system"`-category event is covered by a
group whose representative survives maintenance. -/
theorem c1_amended_witness :
    c4A.category ≠ "system" ∧
    (∃ g, g ∈ groupSimilarEvents (removeOldSystemEvents 2000 c1wState.sessionMemory) ∧ c4A ∈ g ∧
      ((g = [c4A] ∧ c4A ∈ (performMaintenance 2000 (fun _ => "ddddddddd") c1wState).sessionMemory) ∨
       (∃ (first e2 : Event) (rest : List Event) (_k : Nat), g = first :: e2 :: rest ∧
         createConsolidatedEvent (generateEventId 2000 "ddddddddd") first (e2 :: rest)
           ∈ (performMaintenance 2000 (fun _ => "ddddddddd") c1wState).sessionMemory))) := by
  refine ⟨by decide, ?_⟩
  exact c1_amended 2000 (fun _ => "ddddddddd") c1wState c4A (by simp [c1wState])
    (Or.inl (by decide))

/-- Digit characters are distinct for distinct digits. -/
theorem digitChar_inj {a b : Nat} (ha : a < 10) (hb : b < 10) :
    digitChar a = digitChar b → a = b := by
  have H : ∀ x ∈ List.range 10, ∀ y ∈ List.range 10, digitChar x = digitChar y → x = y := by decide
  exact H a (List.mem_range.mpr ha) b (List.mem_range.mpr hb)

/-- No digit character is the hyphen. -/
theorem digitChar_ne_hyphen {a : Nat} (ha : a < 10) : digitChar a ≠ '-' := by
  have H : ∀ x ∈ List.range 10, digitChar x ≠ '-' := by decide
  exact H a (List.mem_range.mpr ha)

/-- The digit rendering is independent of the fuel once it suffices. -/
theorem natDigitsRevFuel_irrel :
    ∀ (f g n : Nat), n < f → n < g → natDigitsRevFuel f n = natDigitsRevFuel g n := by
  intro f
  induction f with
  | zero => intro g n hf; omega
  | succ f ih =>
      intro g n hf hg
      cases g with
      | zero => omega
      | succ g =>
          by_cases h10 : n < 10
          · simp [natDigitsRevFuel, h10]
          · have hn : 0 < n := by omega
            have hdiv : n / 10 < n := Nat.div_lt_self hn (by omega)
            simp only [natDigitsRevFuel, if_neg h10]
            rw [ih g (n / 10) (by omega) (by omega)]

/-- The digit rendering of a natural is nonempty. -/
theorem natDigitsRevFuel_ne_nil : ∀ (f n : Nat), n < f → natDigitsRevFuel f n ≠ [] := by
  intro f n hf
  cases f with
  | zero => omega
  | succ f =>
      by_cases h10 : n < 10 <;> simp [natDigitsRevFuel, h10]

/-- Distinct naturals have distinct digit renderings. -/
theorem natDigitsRev_inj :
    ∀ n m : Nat, natDigitsRevFuel (n + 1) n = natDigitsRevFuel (m + 1) m → n = m := by
  intro n
  induction n using Nat.strong_induction_on with
  | _ n ih =>
      intro m heq
      by_cases hn : n < 10 <;> by_cases hm : m < 10
      · simp only [natDigitsRevFuel, if_pos hn, if_pos hm, List.cons.injEq, and_true] at heq
        exact digitChar_inj hn hm heq
      · exfalso
        simp only [natDigitsRevFuel, if_pos hn, if_neg hm, List.cons.injEq] at heq
        have htail : natDigitsRevFuel m (m / 10) ≠ [] :=
          natDigitsRevFuel_ne_nil m (m / 10)
            (Nat.lt_of_lt_of_le (Nat.div_lt_self (by omega) (by omega)) (by omega))
        exact htail heq.2.symm
      · exfalso
        simp only [natDigitsRevFuel, if_neg hn, if_pos hm, List.cons.injEq] at heq
        have htail : natDigitsRevFuel n (n / 10) ≠ [] :=
          natDigitsRevFuel_ne_nil n (n / 10)
            (Nat.lt_of_lt_of_le (Nat.div_lt_self (by omega) (by omega)) (by omega))
        exact htail heq.2
      · simp only [natDigitsRevFuel, if_neg hn, if_neg hm, List.cons.injEq] at heq
        obtain ⟨h1, h2⟩ := heq
        have hmod : n % 10 = m % 10 :=
          digitChar_inj (Nat.mod_lt _ (by omega)) (Nat.mod_lt _ (by omega)) h1
        have hdn : n / 10 < n := Nat.div_lt_self (by omega) (by omega)
        have hdm : m / 10 < m := Nat.div_lt_self (by omega) (by omega)
        rw [natDigitsRevFuel_irrel n (n / 10 + 1) (n / 10) (by omega) (by omega),
            natDigitsRevFuel_irrel m (m / 10 + 1) (m / 10) (by omega) (by omega)] at h2
        have hdiv : n / 10 = m / 10 := ih (n / 10) hdn (m / 10) h2
        omega

/-- Every rendered character is a digit character. -/
theorem natDigitsRevFuel_mem :
    ∀ (f n : Nat), ∀ c ∈ natDigitsRevFuel f n, ∃ d, d < 10 ∧ c = digitChar d := by
  intro f
  induction f with
  | zero => intro n c hc; simp [natDigitsRevFuel] at hc
  | succ f ih =>
      intro n c hc
      by_cases h10 : n < 10
      · simp only [natDigitsRevFuel, if_pos h10, List.mem_singleton] at hc
        exact ⟨n, h10, hc⟩
      · simp only [natDigitsRevFuel, if_neg h10, List.mem_cons] at hc
        rcases hc with rfl | hc
        · exact ⟨n % 10, Nat.mod_lt _ (by omega), rfl⟩
        · exact ih (n / 10) c hc

/-- The decimal rendering of a natural contains no hyphen. -/
theorem jsNatToString_no_hyphen (n : Nat) : ∀ c ∈ (jsNatToString n).data, c ≠ '-' := by
  intro c hc
  simp only [jsNatToString, List.mem_reverse] at hc
  obtain ⟨d, hd, rfl⟩ := natDigitsRevFuel_mem (n + 1) n c hc
  exact digitChar_ne_hyphen hd

/-- Decimal rendering is injective. -/
theorem jsNatToString_inj {n m : Nat} (h : jsNatToString n = jsNatToString m) : n = m := by
  have hdata : (natDigitsRevFuel (n + 1) n).reverse = (natDigitsRevFuel (m + 1) m).reverse :=
    congrArg String.data h
  exact natDigitsRev_inj n m (List.reverse_injective hdata)

/-- A hyphen-separated concatenation with hyphen-free prefixes splits
uniquely. -/
theorem hyphen_append_inj :
    ∀ (a b r s : List Char), (∀ c ∈ a, c ≠ '-') → (∀ c ∈ b, c ≠ '-') →
      a ++ '-' :: r = b ++ '-' :: s → a = b ∧ r = s := by
  intro a
  induction a with
  | nil =>
      intro b r s _ hb heq
      cases b with
      | nil => simpa using heq
      | cons x xs =>
          exfalso
          simp only [List.nil_append, List.cons_append, List.cons.injEq] at heq
          exact hb x (List.mem_cons_self _ _) heq.1.symm
  | cons x xs ih =>
      intro b r s ha hb heq
      cases b with
      | nil =>
          exfalso
          simp only [List.cons_append, List.nil_append, List.cons.injEq] at heq
          exact ha x (List.mem_cons_self _ _) heq.1
      | cons y ys =>
          simp only [List.cons_append, List.cons.injEq] at heq
          obtain ⟨rfl, htail⟩ := heq
          obtain ⟨h1, h2⟩ := ih ys r s (fun c hc => ha c (List.mem_cons_of_mem _ hc))
            (fun c hc => hb c (List.mem_cons_of_mem _ hc)) htail
          exact ⟨by rw [h1], h2⟩

/-- Strings with equal character data are equal. -/
theorem string_data_inj {s t : String} (h : s.data = t.data) : s = t := by
  cases s; cases t; exact congrArg String.mk h

/-- `generateEventId` is injective in the (clock value, random suffix) pair:
the decimal prefix is hyphen-free, so the first hyphen splits the id
uniquely. -/
theorem generateEventId_inj {t1 t2 : Nat} {r1 r2 : String}
    (heq : generateEventId t1 r1 = generateEventId t2 r2) : t1 = t2 ∧ r1 = r2 := by
  have hdata : (jsNatToString t1).data ++ '-' :: r1.data =
      (jsNatToString t2).data ++ '-' :: r2.data := by
    have := congrArg String.data heq
    simpa [generateEventId] using this
  obtain ⟨ha, hb⟩ :=
    hyphen_append_inj _ _ _ _ (jsNatToString_no_hyphen t1) (jsNatToString_no_hyphen t2) hdata
  exact ⟨jsNatToString_inj (string_data_inj ha), string_data_inj hb⟩

/-- `addUserInput` with a present text never throws. -/
theorem addUserInput_some (s : SessionState) (now : Nat) (rand : Nat → String)
    (text : String) (source : String) :
    addUserInput s now rand (some text) source =
      .ok (addConversationEvent s now rand (some .user) (some text)
        (some (if source = "speech" then "speech_transcription" else "chat_input"))
        { source := some source, textLength := some (jsStrLen text) }) := rfl

/-- The id returned by `addConversationEvent` is the one generated for the
new event. -/
theorem addConversationEvent_snd (s : SessionState) (now : Nat) (rand : Nat → String)
    (role : Option Role) (content : Option String) (action : Option String) (md : Meta) :
    (addConversationEvent s now rand role content action md).2 = generateEventId now (rand 0) := rfl

/-- The ids emitted by a run of appends are exactly the `generateEventId`
values of the per-append clock/suffix inputs. -/
theorem runAppends_snd :
    ∀ (inputs : List (Nat × String × String)) (s : SessionState),
      (runAppends s inputs).2 = inputs.map fun p => generateEventId p.1 p.2.1 := by
  intro inputs
  induction inputs with
  | nil => intro s; rfl
  | cons p rest ih =>
      intro s
      obtain ⟨now, r, text⟩ := p
      rw [runAppends, addUserInput_some]
      simp only []
      rw [List.map_cons]
      have := ih (addConversationEvent s now (fun _ => r) (some .user) (some text)
        (some (if "chat" = "speech" then "speech_transcription" else "chat_input"))
        { source := some "chat", textLength := some (jsStrLen text) }).1
      simp only [this, addConversationEvent_snd]

/-- C9 amended: the emitted ids of a run of appends are pairwise unique
provided the per-append (clock value, random suffix) pairs are pairwise
distinct; uniqueness is not guaranteed over every behavior of the clock and
random source (see the counterexample with a stuck clock and repeated
suffix). -/
theorem c9_amended (s : SessionState) (inputs : List (Nat × String × String))
    (hdistinct : inputs.Pairwise fun p q => (p.1, p.2.1) ≠ (q.1, q.2.1)) :
    (runAppends s inputs).2.Pairwise (· ≠ ·) := by
  rw [runAppends_snd]
  induction inputs with
  | nil => exact List.Pairwise.nil
  | cons p rest ih =>
      obtain ⟨hhead, htail⟩ := List.pairwise_cons.mp hdistinct
      rw [List.map_cons]
      refine List.Pairwise.cons ?_ (ih htail)
      intro b hb heq
      obtain ⟨q, hq, rfl⟩ := List.mem_map.mp hb
      obtain ⟨ht, hr⟩ := generateEventId_inj heq
      exact hhead q hq (by rw [ht, hr])

/-- C9 counterexample: with a stuck clock and a repeating random suffix, two
appends emit the same id, so uniqueness does not hold for every behavior of
the clock and random-number source. -/
theorem c9_counterexample :
    (runAppends baseState [(5, "aaaaaaaaa", "hi"), (5, "aaaaaaaaa", "yo")]).2 =
      ["5-aaaaaaaaa", "5-aaaaaaaaa"] ∧
    ¬ (runAppends baseState [(5, "aaaaaaaaa", "hi"), (5, "aaaaaaaaa", "yo")]).2.Pairwise (· ≠ ·) := by
  constructor
  · rfl
  · intro h
    rw [(by rfl : (runAppends baseState [(5, "aaaaaaaaa", "hi"), (5, "aaaaaaaaa", "yo")]).2 =
      ["5-aaaaaaaaa", "5-aaaaaaaaa"])] at h
    exact (List.pairwise_cons.mp h).1 _ (List.mem_singleton.mpr rfl) rfl

/-- Witness for C9 amended: two appends with distinct clock values give
distinct ids. -/
theorem c9_amended_witness :
    ([((1 : Nat), "aaaaaaaaa", "hi"), ((2 : Nat), "aaaaaaaaa", "yo")].Pairwise
      fun p q => (p.1, p.2.1) ≠ (q.1, q.2.1)) ∧
    (runAppends baseState [(1, "aaaaaaaaa", "hi"), (2, "aaaaaaaaa", "yo")]).2.Pairwise (· ≠ ·) := by
  refine ⟨by decide, ?_⟩
  exact c9_amended baseState _ (by decide)
